import Mathlib

/-!
# Verification of the py_grama evaluation engine

Shallow embedding of the core evaluation/calibration/optimization routines of
the repository:

* `eval_monte_carlo` (grama/evals/random_sampling.py) — correlated Monte Carlo
  sampling via a Gaussian copula;
* `eval_nls` (grama/eval_opt.py) — nonlinear least-squares calibration;
* `eval_min` (grama/eval_opt.py) — constrained minimization.

Machine floats are modelled by `ℚ`; IEEE non-finiteness (`isfinite`) is
modelled by an explicit boolean field where the code tests it.  External
collaborators (the model Evaluator `eval_df`, the scipy solver `minimize`,
the numpy random generator, and the standard-normal cdf/ppf) are parameters
of the embedded functions: every theorem holds for all instantiations of
them, and witnesses instantiate them concretely.
-/

namespace Grama

/-! ## Correlation-matrix construction (random_sampling.py, lines 33–36)

`np.triu_indices(n, 1)` enumerates the strictly-upper-triangular positions in
row-major order; `np.tril_indices(n, -1)` enumerates the strictly-lower
positions in row-major order.  `eval_monte_carlo` assigns the flat vector
`model.density.pdf_corr` elementwise to both position lists, starting from
the identity matrix `np.eye(n_in)`. -/

/-- Row-major list of strictly upper-triangular index pairs, as produced by
`np.triu_indices(n, 1)`. -/
def triuIndices (n : ℕ) : List (ℕ × ℕ) :=
  (List.range n).flatMap (fun i =>
    ((List.range n).filter (fun j => decide (i < j))).map (fun j => (i, j)))

/-- Row-major list of strictly lower-triangular index pairs, as produced by
`np.tril_indices(n, -1)`. -/
def trilIndices (n : ℕ) : List (ℕ × ℕ) :=
  (List.range n).flatMap (fun i =>
    ((List.range n).filter (fun j => decide (j < i))).map (fun j => (i, j)))

/-- Elementwise assignment `M[positions] = values` of numpy fancy indexing:
later writes override earlier ones. -/
def writePairs (ps : List ((ℕ × ℕ) × ℚ)) (M : ℕ → ℕ → ℚ) : ℕ → ℕ → ℚ :=
  ps.foldl (fun A e => fun i j => if i = e.1.1 ∧ j = e.1.2 then e.2 else A i j) M

/-- The matrix `Sigma` built by `eval_monte_carlo` (lines 34–36):
`Sigma = np.eye(n_in)`; `Sigma[np.triu_indices(n_in, 1)] = pdf_corr`;
`Sigma[np.tril_indices(n_in, -1)] = pdf_corr`. -/
def buildSigma (n : ℕ) (corr : List ℚ) : ℕ → ℕ → ℚ :=
  writePairs ((trilIndices n).zip corr)
    (writePairs ((triuIndices n).zip corr) (fun i j => if i = j then 1 else 0))

/-- The mean vector of the latent correlated-normal draw (line 39):
`mean = np.ones(model.n_in)`. -/
def latentMean (n : ℕ) : List ℚ :=
  List.replicate n 1

/-! ## Marginal quantile inversion (random_sampling.py, lines 49–63)

The per-dimension loop body: a `"unif"` factor applies the affine map
`u * (upper - lower) + lower`; a `"norm"` factor applies
`norm.ppf(u, loc, scale) = loc + scale * Φ⁻¹(u)` where `Φ⁻¹` is the
standard-normal quantile function (external, passed as `stdPpf`); any other
factor leaves the column untouched (the if/elif chain has no else branch). -/

/-- One coordinate of the marginal-inversion loop of `eval_monte_carlo`.
`param` models the python dict `model.density.pdf_param[ind]`. -/
def marginalTransform (stdPpf : ℚ → ℚ) (factor : String) (param : String → ℚ)
    (u : ℚ) : ℚ :=
  if factor = "unif" then
    u * (param "upper" - param "lower") + param "lower"
  else if factor = "norm" then
    param "loc" + param "scale" * stdPpf u
  else
    u

/-! ## The Monte Carlo sampler `eval_monte_carlo` -/

/-- A dataframe: named columns over rows of rationals. -/
structure Table where
  columns : List String
  data : List (List ℚ)
deriving Repr, DecidableEq

/-- `model.density`: marginal factor names, their parameter dicts, and the
optional flat correlation vector `pdf_corr`. -/
structure MCDensity where
  pdf_factors : List String
  pdf_param : List (String → ℚ)
  pdf_corr : Option (List ℚ)

/-- The part of a grama model read by `eval_monte_carlo`. -/
structure MCModel where
  n_in : ℕ
  density? : Option MCDensity
  inputs : List String

/-- The numpy global random generator, modelled as an explicit state machine
over states `ℕ`: `seedFn` is `np.random.seed`, `mvn` is
`np.random.multivariate_normal(mean, cov, size)`, `unif` is
`np.random.random((n, m))`; each draw returns the samples and the new state. -/
structure Rng where
  seedFn : ℕ → ℕ
  mvn : ℕ → ℕ → List ℚ → (ℕ → ℕ → ℚ) → List (List ℚ) × ℕ
  unif : ℕ → ℕ → ℕ → List (List ℚ) × ℕ

/-- Shallow embedding of `eval_monte_carlo(model, n_samples, seed, append)`.
`stdCdf`/`stdPpf` are `scipy.stats.norm.cdf`/`.ppf` (standard parameters);
`evaluator` is the external collaborator `core.eval_df`.  The global random
state is threaded explicitly: the function takes the incoming process state
and returns the result together with the outgoing state. -/
def eval_monte_carlo (rng : Rng) (stdCdf stdPpf : ℚ → ℚ)
    (evaluator : MCModel → Table → Bool → Table)
    (m : MCModel) (n_samples : ℕ) (seed : Option ℕ) (append : Bool)
    (state : ℕ) : Except String Table × ℕ :=
  match m.density? with
  | none => (.error "Model density must be factorable!", state)
  | some d =>
    if d.pdf_factors.length ≠ d.pdf_param.length then
      (.error "model.density.pdf_factors not same length as model.density.pdf_param!",
        state)
    else
      let st0 := match seed with
        | some s => rng.seedFn s
        | none => state
      let drawn : List (List ℚ) × ℕ := match d.pdf_corr with
        | some corr =>
          let Sigma := buildSigma m.n_in corr
          let g := rng.mvn st0 n_samples (latentMean m.n_in) Sigma
          (g.1.map (fun row => row.map stdCdf), g.2)
        | none => rng.unif st0 n_samples m.n_in
      let samples := drawn.1.map (fun row =>
        row.enum.map (fun p =>
          marginalTransform stdPpf (d.pdf_factors.getD p.1 "")
            (d.pdf_param.getD p.1 (fun _ => 0)) p.2))
      let df_inputs : Table := ⟨m.inputs, samples⟩
      (.ok (evaluator m df_inputs append), drawn.2)

/-! ## Nonlinear least squares: `eval_nls` (eval_opt.py, lines 17–179)

Python `set` objects appear only through membership tests and through
`list(...)` conversions whose elements are immediately re-filtered; the
embedding represents each set by a duplicate-free list and every derived
quantity by the filter the code computes.  `isfinite` on the (float) nominal
value is modelled by the boolean field `nominalFinite`. -/

/-- The part of a grama model read by `eval_nls`: variable-role lists, output
names, and the Domain/Density accessors `get_width`, `get_nominal` (with its
`isfinite` test), `get_bound`, and the marginals' `q(0)`/`q(1)`. -/
structure NlsModel where
  var_det : List String
  var_rand : List String
  out : List String
  width : String → ℚ
  nominal : String → ℚ
  nominalFinite : String → Bool
  boundLo : String → ℚ
  boundHi : String → ℚ
  q0 : String → ℚ
  q1 : String → ℚ

/-- `model.var`: deterministic variables followed by random variables. -/
def NlsModel.var (m : NlsModel) : List String :=
  m.var_det ++ m.var_rand

/-- The explicit arguments of `eval_nls` besides the model: the observed
data's column names, and the optional `out`/`var_fix` arguments. -/
structure NlsArgs where
  df_cols : List String
  out? : Option (List String)
  var_fix? : Option (List String)
  nrestart : ℕ
  append : Bool

/-- The `ValueError`/`NotImplementedError` conditions `eval_nls` can raise,
with the variable/column lists their messages name. -/
inductive NlsError where
  | missingOut (missing : List String)
  | noVarFit
  | nonFiniteNominal (vars : List String)
  | notImplemented
deriving DecidableEq, Repr

/-- The fields of a `scipy.optimize.minimize` result that `eval_nls` reads:
`res.x`, `res.status`, `res.fun`. -/
structure SolverOut where
  x : List ℚ
  status : ℤ
  fval : ℚ

/-- The result of a successful `eval_nls` call: the fixed and fitted
variable lists and the returned table (columns plus its single row, one
initial guess). -/
structure NlsResult where
  var_fix : List String
  var_fit : List String
  columns : List String
  row : List ℚ
deriving DecidableEq, Repr

/-- The effective `out` list: the caller's `out`, or `model.out` when `out`
is omitted (line 67–68). -/
def nlsEffOut (m : NlsModel) (a : NlsArgs) : List String :=
  a.out?.getD m.out

/-- `set(out).difference(set(df_data.columns))` (line 70): the effective
`out` names absent from the data columns. -/
def nlsOutMissing (m : NlsModel) (a : NlsArgs) : List String :=
  (nlsEffOut m a).filter (fun o => decide (o ∉ a.df_cols))

/-- `var_fix` after the width-zero sweep (lines 78–85): the caller's
`var_fix` (empty when omitted) plus every deterministic variable of domain
width exactly zero, as a duplicate-free list. -/
def nlsVarFix (m : NlsModel) (a : NlsArgs) : List String :=
  ((a.var_fix?.getD []) ++ m.var_det.filter (fun v => decide (m.width v = 0))).dedup

/-- `var_feat = set(model.var) ∩ set(df_data.columns)` (line 89). -/
def nlsVarFeat (m : NlsModel) (a : NlsArgs) : List String :=
  m.var.filter (fun v => decide (v ∈ a.df_cols))

/-- `var_fit = set(model.var) − (var_fix ∪ var_feat)` (line 93), before the
det/rand ordering pass. -/
def nlsVarFitAll (m : NlsModel) (a : NlsArgs) : List String :=
  m.var.filter (fun v => decide (v ∉ nlsVarFix m a ∧ v ∉ nlsVarFeat m a))

/-- `var_fit_det = set(model.var_det) ∩ var_fit` (line 101). -/
def nlsVarFitDet (m : NlsModel) (a : NlsArgs) : List String :=
  m.var_det.filter (fun v => decide (v ∈ nlsVarFitAll m a))

/-- `var_fit_rand = set(model.var_rand) ∩ var_fit` (line 102). -/
def nlsVarFitRand (m : NlsModel) (a : NlsArgs) : List String :=
  m.var_rand.filter (fun v => decide (v ∈ nlsVarFitAll m a))

/-- `var_fit = var_fit_det + var_fit_rand` (line 105): the fixed ordering,
deterministic variables first. -/
def nlsVarFit (m : NlsModel) (a : NlsArgs) : List String :=
  nlsVarFitDet m a ++ nlsVarFitRand m a

/-- `var_prob` (lines 107–110): deterministic fit variables whose nominal
value is not finite. -/
def nlsVarProb (m : NlsModel) (a : NlsArgs) : List String :=
  (nlsVarFitDet m a).filter (fun v => ! m.nominalFinite v)

/-- The solver bounds (lines 106–121): Domain bound pairs for deterministic
fit variables, then `(q(0), q(1))` for random fit variables. -/
def nlsBounds (m : NlsModel) (a : NlsArgs) : List (ℚ × ℚ) :=
  (nlsVarFitDet m a).map (fun v => (m.boundLo v, m.boundHi v)) ++
    (nlsVarFitRand m a).map (fun v => (m.q0 v, m.q1 v))

/-- The singleton "fixed" row built inside the objective (line 141):
`concat(df_nom[var_fix].iloc[[0]], df_make(**dict(zip(var_fit, x))))` —
each `var_fix` variable carries its nominal value, each `var_fit` variable
the trial value from `x`. -/
def nlsFixedRow (m : NlsModel) (var_fix var_fit : List String) (x : List ℚ) :
    String → Option ℚ :=
  fun v => if v ∈ var_fix then some (m.nominal v) else (var_fit.zip x).lookup v

/-- Shallow embedding of `eval_nls(model, df_data, out, var_fix, append,
tol, maxiter, nrestart)`.  `E` is the external residual evaluator: it bundles
`tran_outer`, `eval_df` and the mean-squared-error reduction over `df_data`,
consuming the per-trial fixed row; `solver` is `scipy.optimize.minimize`
(objective, initial point, bounds).  The checks appear in source order:
missing `out` columns (line 71), empty `var_fit` (line 94), non-finite
nominals (line 112), unimplemented `nrestart > 1` (line 127). -/
def eval_nls (E : (String → Option ℚ) → ℚ)
    (solver : (List ℚ → ℚ) → List ℚ → List (ℚ × ℚ) → SolverOut)
    (m : NlsModel) (a : NlsArgs) : Except NlsError NlsResult :=
  if nlsOutMissing m a ≠ [] then .error (.missingOut (nlsOutMissing m a))
  else if nlsVarFitAll m a = [] then .error .noVarFit
  else if nlsVarProb m a ≠ [] then .error (.nonFiniteNominal (nlsVarProb m a))
  else if 1 < a.nrestart then .error .notImplemented
  else
    let var_fit := nlsVarFit m a
    let x0 := var_fit.map m.nominal
    let objective := fun x => E (nlsFixedRow m (nlsVarFix m a) var_fit x)
    let res := solver objective x0 (nlsBounds m a)
    let allCols := var_fit ++ var_fit.map (fun s => s ++ "_0") ++ ["status", "mse"]
    let allRow := res.x ++ x0 ++ [(res.status : ℚ), res.fval]
    .ok { var_fix := nlsVarFix m a, var_fit := var_fit,
          columns := if a.append then allCols else var_fit,
          row := if a.append then allRow else res.x }

/-! ## Constrained minimization: `eval_min` (eval_opt.py, lines 186–311) -/

/-- The part of a grama model read by `eval_min`: its variables, the count
of random variables, its outputs, and the nominal values used for the
default starting point. -/
structure MinModel where
  var : List String
  n_var_rand : ℕ
  out : List String
  nominal : String → ℚ

/-- The explicit arguments of `eval_min` besides the model.  `df_start?`
models the optional starting-point row. -/
structure MinArgs where
  out_min? : Option String
  out_geq? : Option (List String)
  out_eq? : Option (List String)
  nrestart : ℕ
  df_start? : Option (String → ℚ)

/-- The `ValueError` conditions `eval_min` can raise, with the output lists
their messages name. -/
inductive MinError where
  | hasRandVars
  | missingOutMin
  | missingGeq (missing : List String)
  | missingEq (missing : List String)
deriving DecidableEq, Repr

/-- The field of a `scipy.optimize.minimize` result that `eval_min` reads:
`res.x`. -/
structure MinOut where
  x : List ℚ

/-- The single-row result table of `eval_min`: one optimized value per model
variable. -/
structure MinResult where
  columns : List String
  row : List ℚ
deriving DecidableEq, Repr

/-- The check `out_min in model.out` (line 251); the Python default
`out_min = None` is never a member of a list of strings. -/
def minOutMinOk (m : MinModel) (a : MinArgs) : Bool :=
  match a.out_min? with
  | some o => decide (o ∈ m.out)
  | none => false

/-- `set(out_geq).difference(set(model.out))` (line 255), empty when
`out_geq` is `None`. -/
def minGeqMiss (m : MinModel) (a : MinArgs) : List String :=
  (a.out_geq?.getD []).filter (fun o => decide (o ∉ m.out))

/-- `set(out_eq).difference(set(model.out))` (line 261), empty when
`out_eq` is `None`. -/
def minEqMiss (m : MinModel) (a : MinArgs) : List String :=
  (a.out_eq?.getD []).filter (fun o => decide (o ∉ m.out))

/-- `DataFrame([x], columns=model.var)` as a row lookup: the value of
variable `v` in the candidate point `x`. -/
def rowAssoc (vars : List String) (x : List ℚ) : String → ℚ :=
  fun v => ((vars.zip x).lookup v).getD 0

/-- Shallow embedding of `eval_min(model, out_min, out_geq, out_eq, method,
tol, nrestart, maxiter, df_start)`.  `E` is the external Evaluator
(`eval_df` wrapped by `make_fun`: candidate row ↦ named output value);
`solver` is `scipy.optimize.minimize` (objective, initial point, constraint
list tagged `"ineq"` / `"eq"`).  The checks appear in source order: random
variables present (line 248), `out_min` not an output (line 251), missing
`out_geq` names (line 256), missing `out_eq` names (line 262).  Note that
`nrestart` is read nowhere in the body. -/
def eval_min (E : (String → ℚ) → String → ℚ)
    (solver : (List ℚ → ℚ) → List ℚ → List (String × (List ℚ → ℚ)) → MinOut)
    (m : MinModel) (a : MinArgs) : Except MinError MinResult :=
  if 0 < m.n_var_rand then .error .hasRandVars
  else if minOutMinOk m a = false then .error .missingOutMin
  else if minGeqMiss m a ≠ [] then .error (.missingGeq (minGeqMiss m a))
  else if minEqMiss m a ≠ [] then .error (.missingEq (minEqMiss m a))
  else
    let start := a.df_start?.getD m.nominal
    let x0 := m.var.map start
    let mkFun := fun (o : String) => fun (x : List ℚ) => E (rowAssoc m.var x) o
    let constraints :=
      (a.out_geq?.getD []).map (fun o => (("ineq" : String), mkFun o)) ++
        (a.out_eq?.getD []).map (fun o => (("eq" : String), mkFun o))
    let res := solver (mkFun (a.out_min?.getD "")) x0 constraints
    .ok { columns := m.var, row := res.x }

/-- Whether an `Except` result is a success. -/
def exceptIsOk {ε α : Type} : Except ε α → Bool
  | .ok _ => true
  | .error _ => false

/-! ## Concrete fixtures used by witness theorems -/

/-- A trivial residual evaluator for `eval_nls` witnesses. -/
def nlsE0 : (String → Option ℚ) → ℚ :=
  fun _ => 0

/-- A trivial solver for `eval_nls` witnesses: returns the initial point. -/
def nlsS0 : (List ℚ → ℚ) → List ℚ → List (ℚ × ℚ) → SolverOut :=
  fun _ x0 _ => ⟨x0, 0, 0⟩

/-- A one-variable deterministic model (`x`, output `f`). -/
def nlsM0 : NlsModel :=
  ⟨["x"], [], ["f"], fun _ => 1, fun _ => 0, fun _ => true,
    fun _ => 0, fun _ => 1, fun _ => 0, fun _ => 1⟩

/-- Arguments for `nlsM0`: data column `f`, all defaults. -/
def nlsA0 : NlsArgs :=
  ⟨["f"], none, none, 1, false⟩

/-- Arguments with a missing `out` column: `out = ["f"]` but the data only
has column `g`. -/
def nlsA2 : NlsArgs :=
  ⟨["g"], some ["f"], none, 1, false⟩

/-- Arguments for `nlsM0` with `nrestart = 2`. -/
def nlsA3 : NlsArgs :=
  ⟨["f"], none, none, 2, false⟩

/-- A two-variable deterministic model in which variable `c` has domain
width zero and nominal value `5`. -/
def nlsM1 : NlsModel :=
  ⟨["c", "x"], [], ["f"], fun v => if v = "c" then 0 else 1, fun _ => 5,
    fun _ => true, fun _ => 0, fun _ => 1, fun _ => 0, fun _ => 1⟩

/-- Arguments for `nlsM1`: data column `f`, explicit `out = ["f"]`. -/
def nlsA1 : NlsArgs :=
  ⟨["f"], some ["f"], none, 1, false⟩

/-- A trivial output evaluator for `eval_min` witnesses. -/
def minE0 : (String → ℚ) → String → ℚ :=
  fun _ _ => 0

/-- A trivial solver for `eval_min` witnesses: returns the initial point. -/
def minS0 : (List ℚ → ℚ) → List ℚ → List (String × (List ℚ → ℚ)) → MinOut :=
  fun _ x0 _ => ⟨x0⟩

/-- A one-variable deterministic model with output `c`. -/
def minM0 : MinModel :=
  ⟨["x"], 0, ["c"], fun _ => 0⟩

/-- Valid arguments for `minM0`: minimize output `c`, no constraints. -/
def minA0 : MinArgs :=
  ⟨some "c", none, none, 1, none⟩

/-- A model with one random variable, for the precondition witness. -/
def minM1 : MinModel :=
  ⟨["x"], 1, ["c"], fun _ => 0⟩

/-! ## The set-iteration order of `list(set(...))` (eval_opt.py, lines 101–105)

`var_fit_det = list(set(model.var_det).intersection(var_fit))` and its
`var_rand` twin convert a CPython set of strings to a list.  The membership
of that set is determined by the arguments, but the *order* in which CPython
iterates a set of strings depends on the per-process string-hash seed: it is
some permutation of the elements, fixed within one process and varying
between processes.  The embedding makes this hidden input explicit as a
reordering function `enum` applied to the intersection's element list. -/

/-- An admissible set-iteration order: on every element list it yields some
permutation of that list.  Each process's string-hash seed induces one such
order. -/
def IsSetEnum (enum : List String → List String) : Prop :=
  ∀ l : List String, (enum l).Perm l

/-- `var_fit = list(set(var_det) ∩ var_fit) + list(set(var_rand) ∩ var_fit)`
(lines 101–105) with the process's set-iteration order `enum` explicit:
`nlsVarFitDet`/`nlsVarFitRand` give the intersections' elements, `enum` the
order the process happens to list them in. -/
def nlsVarFitOrd (enum : List String → List String) (m : NlsModel) (a : NlsArgs) :
    List String :=
  enum (nlsVarFitDet m a) ++ enum (nlsVarFitRand m a)

/-- One admissible set-iteration order: list the elements as given. -/
def setEnumId : List String → List String :=
  fun l => l

/-- Another admissible set-iteration order, as another process's hash seed
may produce: list the elements reversed. -/
def setEnumRev : List String → List String :=
  fun l => l.reverse

/-- A model with two deterministic fit variables `a` and `b`. -/
def nlsM4 : NlsModel :=
  ⟨["a", "b"], [], ["f"], fun _ => 1, fun _ => 0, fun _ => true,
    fun _ => 0, fun _ => 1, fun _ => 0, fun _ => 1⟩

/-- Arguments for `nlsM4`: data column `f`, all defaults. -/
def nlsA4 : NlsArgs :=
  ⟨["f"], none, none, 1, false⟩

/-! ## Claims C1 and C2 -/

/-- **C1.** The claim asserts that the matrix `Sigma` built by
`eval_monte_carlo` is symmetric with unit diagonal for every `n_in` and every
off-diagonal vector.  This fails for `n_in = 4`: `np.triu_indices(4, 1)` is
row-major over the upper triangle while `np.tril_indices(4, -1)` is row-major
over the lower triangle, and those two orders are not transposes of each
other, so the same flat vector lands at mismatched positions.  With
`pdf_corr = [1, 2, 3, 4, 5, 6]` the built matrix has `Sigma[1][2] = 4` but
`Sigma[2][1] = 3` (the diagonal is still all ones). -/
theorem buildSigma_asymmetric_at_four :
    buildSigma 4 [1, 2, 3, 4, 5, 6] 1 2 = 4 ∧
    buildSigma 4 [1, 2, 3, 4, 5, 6] 2 1 = 3 ∧
    buildSigma 4 [1, 2, 3, 4, 5, 6] 1 2 ≠ buildSigma 4 [1, 2, 3, 4, 5, 6] 2 1 ∧
    (∀ i : Fin 4, buildSigma 4 [1, 2, 3, 4, 5, 6] i i = 1) := by
  decide

/-- **C2.** The claim asserts that the latent correlated-normal vectors are
drawn with zero mean.  The code passes `mean = np.ones(model.n_in)` to
`np.random.multivariate_normal`, so for every positive dimension the latent
mean differs from the zero vector. -/
theorem latentMean_ne_zeroVector (n : ℕ) (h : 0 < n) :
    latentMean n ≠ List.replicate n 0 := by
  cases n with
  | zero => exact absurd h (by omega)
  | succ k =>
    intro hEq
    simp [latentMean, List.replicate_succ] at hEq

/-- Witness for C2 at `n = 2`. -/
theorem latentMean_ne_zeroVector_witness :
    0 < 2 ∧ latentMean 2 ≠ List.replicate 2 (0 : ℚ) :=
  ⟨by decide, latentMean_ne_zeroVector 2 (by decide)⟩

/-! ## Claims C8, C9, C10 -/

/-- **C8.** The marginal-inversion step maps a `"unif"`-family coordinate
affinely by `u * (upper - lower) + lower` and a `"norm"`-family coordinate by
`loc + scale * Φ⁻¹(u)` (scipy's `norm.ppf` with location and scale); and for
a uniform marginal with `lower ≤ upper`, every draw `u ∈ [0, 1]` lands inside
the `[lower, upper]` bounds. -/
theorem marginalTransform_unif_bounds (stdPpf : ℚ → ℚ) (param : String → ℚ)
    (u : ℚ) (h0 : 0 ≤ u) (h1 : u ≤ 1) (hlu : param "lower" ≤ param "upper") :
    marginalTransform stdPpf "unif" param u =
      u * (param "upper" - param "lower") + param "lower" ∧
    (∀ p : String → ℚ, marginalTransform stdPpf "norm" p u =
      p "loc" + p "scale" * stdPpf u) ∧
    param "lower" ≤ marginalTransform stdPpf "unif" param u ∧
    marginalTransform stdPpf "unif" param u ≤ param "upper" := by
  have heq : marginalTransform stdPpf "unif" param u =
      u * (param "upper" - param "lower") + param "lower" := rfl
  refine ⟨heq, fun p => rfl, ?_, ?_⟩
  · rw [heq]
    nlinarith [mul_nonneg h0 (sub_nonneg.mpr hlu)]
  · rw [heq]
    nlinarith [mul_le_of_le_one_left (sub_nonneg.mpr hlu) h1]

/-- Witness for C8: identity `Φ⁻¹`, `lower = 0`, `upper = 1`, `u = 1/2`. -/
theorem marginalTransform_unif_bounds_witness :
    (0 : ℚ) ≤ 1/2 ∧ (1/2 : ℚ) ≤ 1 ∧
    (fun s => if s = "upper" then (1 : ℚ) else 0) "lower" ≤
      (fun s => if s = "upper" then (1 : ℚ) else 0) "upper" ∧
    (fun s => if s = "upper" then (1 : ℚ) else 0) "lower" ≤
      marginalTransform id "unif" (fun s => if s = "upper" then (1 : ℚ) else 0) (1/2) :=
  ⟨by norm_num, by norm_num, by decide,
    (marginalTransform_unif_bounds id (fun s => if s = "upper" then (1 : ℚ) else 0)
      (1/2) (by norm_num) (by norm_num) (by decide)).2.2.1⟩

/-- **C9.** With the same non-`None` seed, the same model, the same sample
count and the same (deterministic, functional) collaborators, two
`eval_monte_carlo` calls return identical result tables regardless of the
incoming global random-generator state: seeding overwrites that state before
any draw. -/
theorem eval_monte_carlo_seed_deterministic (rng : Rng) (stdCdf stdPpf : ℚ → ℚ)
    (evaluator : MCModel → Table → Bool → Table) (m : MCModel)
    (n_samples : ℕ) (s : ℕ) (append : Bool) (state₁ state₂ : ℕ) :
    (eval_monte_carlo rng stdCdf stdPpf evaluator m n_samples (some s) append state₁).1 =
    (eval_monte_carlo rng stdCdf stdPpf evaluator m n_samples (some s) append state₂).1 := by
  unfold eval_monte_carlo
  cases m.density? with
  | none => rfl
  | some d =>
    by_cases hlen : d.pdf_factors.length ≠ d.pdf_param.length
    · simp only [if_pos hlen]
    · simp only [if_neg hlen]

/-- **C10.** A marginal whose family name is neither `"unif"` nor `"norm"`
is passed through unchanged by the inversion loop: the if/elif chain has no
else branch, so no error is raised and the (copula-transformed or raw)
uniform value reaches the Evaluator as-is. -/
theorem marginalTransform_unknown_family_id (stdPpf : ℚ → ℚ) (factor : String)
    (param : String → ℚ) (u : ℚ) (h1 : factor ≠ "unif") (h2 : factor ≠ "norm") :
    marginalTransform stdPpf factor param u = u := by
  simp [marginalTransform, if_neg h1, if_neg h2]

/-- Witness for C10 at `factor = "beta"`, `u = 3/4`. -/
theorem marginalTransform_unknown_family_id_witness :
    ("beta" : String) ≠ "unif" ∧ ("beta" : String) ≠ "norm" ∧
    marginalTransform id "beta" (fun _ => 0) (3/4) = 3/4 :=
  ⟨by decide, by decide,
    marginalTransform_unknown_family_id id "beta" (fun _ => 0) (3/4)
      (by decide) (by decide)⟩

/-! ## Claim C6 -/

/-- **C6.** `eval_nls` raises the missing-`out`-columns `ValueError` exactly
when the effective `out` list (the caller's `out`, or `model.out` when
omitted) has a name absent from the data columns; the reported list names
exactly those missing names; and the error is raised before the solver (or
the residual evaluator) is ever invoked: the outcome is the same for every
solver and evaluator. -/
theorem eval_nls_missing_out_check
    (E₁ : (String → Option ℚ) → ℚ)
    (s₁ : (List ℚ → ℚ) → List ℚ → List (ℚ × ℚ) → SolverOut)
    (E₂ : (String → Option ℚ) → ℚ)
    (s₂ : (List ℚ → ℚ) → List ℚ → List (ℚ × ℚ) → SolverOut)
    (m : NlsModel) (a : NlsArgs) :
    (∀ x, x ∈ nlsOutMissing m a ↔ x ∈ nlsEffOut m a ∧ x ∉ a.df_cols) ∧
    (nlsOutMissing m a ≠ [] →
      eval_nls E₁ s₁ m a = .error (.missingOut (nlsOutMissing m a)) ∧
      eval_nls E₁ s₁ m a = eval_nls E₂ s₂ m a) ∧
    (nlsOutMissing m a = [] →
      ∀ l, eval_nls E₁ s₁ m a ≠ .error (.missingOut l)) := by
  refine ⟨?_, ?_, ?_⟩
  · intro x
    simp [nlsOutMissing, List.mem_filter]
  · intro h
    constructor <;> simp only [eval_nls, if_pos h]
  · intro h l
    simp only [eval_nls, h]
    split_ifs <;> simp_all

/-- Witness for C6: `out = ["f"]` against data columns `["g"]` reports
exactly `["f"]`, for the trivial fixture solver and evaluator. -/
theorem eval_nls_missing_out_check_witness :
    nlsOutMissing nlsM0 nlsA2 = ["f"] ∧
    eval_nls nlsE0 nlsS0 nlsM0 nlsA2 = .error (.missingOut (nlsOutMissing nlsM0 nlsA2)) :=
  ⟨by decide,
    ((eval_nls_missing_out_check nlsE0 nlsS0 nlsE0 nlsS0 nlsM0 nlsA2).2.1
      (by decide)).1⟩

/-! ## Claim C4 -/

/-- **C4 (counterexample).** The claim asserts that two `eval_nls` runs with
identical inputs produce `var_fit` in the same order.  The within-block
order comes from `list(set(...))` (lines 101–102), whose CPython iteration
order depends on the per-process string-hash seed.  Two admissible
set-iteration orders — both permutations of the same two-element
deterministic intersection, as two process runs with different hash seeds
realize — give different `var_fit` sequences for the identical model and
arguments. -/
theorem var_fit_order_hash_seed_dependent :
    (setEnumId (nlsVarFitDet nlsM4 nlsA4)).Perm (nlsVarFitDet nlsM4 nlsA4) ∧
    (setEnumRev (nlsVarFitDet nlsM4 nlsA4)).Perm (nlsVarFitDet nlsM4 nlsA4) ∧
    nlsVarFitOrd setEnumId nlsM4 nlsA4 = ["a", "b"] ∧
    nlsVarFitOrd setEnumRev nlsM4 nlsA4 = ["b", "a"] ∧
    nlsVarFitOrd setEnumId nlsM4 nlsA4 ≠ nlsVarFitOrd setEnumRev nlsM4 nlsA4 := by
  decide

/-- **C4 (amended).** Whatever set-iteration order the process's string-hash
seed induces, the final `var_fit` lists all deterministic fit variables
before all random fit variables (line 105: `var_fit = var_fit_det +
var_fit_rand`); and the `eval_nls` embedding realizes one admissible order,
its successful result's `var_fit` being `nlsVarFitOrd` at the as-given
order.  The within-block order itself is hash-seed dependent and therefore
not reproducible across process runs (see the counterexample). -/
theorem nlsVarFitOrd_det_first (enum : List String → List String)
    (hEnum : IsSetEnum enum) (m : NlsModel) (a : NlsArgs) :
    (∃ d rl, nlsVarFitOrd enum m a = d ++ rl ∧
      (∀ v ∈ d, v ∈ m.var_det) ∧ (∀ v ∈ rl, v ∈ m.var_rand)) ∧
    (∀ (E : (String → Option ℚ) → ℚ)
      (s : (List ℚ → ℚ) → List ℚ → List (ℚ × ℚ) → SolverOut) (r : NlsResult),
      eval_nls E s m a = .ok r → r.var_fit = nlsVarFitOrd setEnumId m a) := by
  constructor
  · refine ⟨enum (nlsVarFitDet m a), enum (nlsVarFitRand m a), rfl, ?_, ?_⟩
    · intro v hv
      have hv' : v ∈ nlsVarFitDet m a := (hEnum (nlsVarFitDet m a)).mem_iff.mp hv
      exact (List.mem_filter.mp hv').1
    · intro v hv
      have hv' : v ∈ nlsVarFitRand m a := (hEnum (nlsVarFitRand m a)).mem_iff.mp hv
      exact (List.mem_filter.mp hv').1
  · intro E s r h
    unfold eval_nls at h
    split_ifs at h <;> simp only [Except.ok.injEq] at h <;> rw [← h] <;> rfl

/-- Witness for the amended C4: the reversed iteration order on the
two-deterministic-variable fixture, plus the concrete `eval_nls` run
realizing the as-given order. -/
theorem nlsVarFitOrd_det_first_witness :
    (∃ d rl, nlsVarFitOrd setEnumRev nlsM4 nlsA4 = d ++ rl ∧
      (∀ v ∈ d, v ∈ nlsM4.var_det) ∧ (∀ v ∈ rl, v ∈ nlsM4.var_rand)) ∧
    (⟨[], ["a", "b"], ["a", "b"], [0, 0]⟩ : NlsResult).var_fit =
      nlsVarFitOrd setEnumId nlsM4 nlsA4 :=
  ⟨(nlsVarFitOrd_det_first setEnumRev (fun l => List.reverse_perm l)
      nlsM4 nlsA4).1,
    (nlsVarFitOrd_det_first setEnumRev (fun l => List.reverse_perm l)
      nlsM4 nlsA4).2 nlsE0 nlsS0 ⟨[], ["a", "b"], ["a", "b"], [0, 0]⟩ rfl⟩

/-! ## Claim C5 -/

/-- **C5.** In every successful `eval_nls` call, a deterministic variable of
domain width exactly zero is in the final `var_fix` regardless of the
caller's `var_fix` argument, is never among the fitted `var_fit` columns
(which are exactly the returned table's columns when `append` is off), and
the fixed row used inside the objective carries its nominal value for every
trial point `x`. -/
theorem eval_nls_width_zero_always_fixed
    (E : (String → Option ℚ) → ℚ)
    (s : (List ℚ → ℚ) → List ℚ → List (ℚ × ℚ) → SolverOut)
    (m : NlsModel) (a : NlsArgs) (v : String) (r : NlsResult)
    (hdet : v ∈ m.var_det) (hw : m.width v = 0)
    (h : eval_nls E s m a = .ok r) :
    v ∈ r.var_fix ∧ v ∉ r.var_fit ∧
    (a.append = false → r.columns = r.var_fit) ∧
    (∀ x, nlsFixedRow m r.var_fix r.var_fit x v = some (m.nominal v)) := by
  have hfix0 : v ∈ nlsVarFix m a := by
    refine List.mem_dedup.mpr (List.mem_append.mpr (Or.inr ?_))
    refine List.mem_filter.mpr ⟨hdet, ?_⟩
    simp [hw]
  have hnfit : v ∉ nlsVarFit m a := by
    intro hmem
    have hall : v ∈ nlsVarFitAll m a := by
      rcases List.mem_append.mp hmem with hd | hr
      · simpa using (List.mem_filter.mp hd).2
      · simpa using (List.mem_filter.mp hr).2
    have h3 := (List.mem_filter.mp hall).2
    simp only [decide_eq_true_eq] at h3
    exact h3.1 hfix0
  have hr : r.var_fix = nlsVarFix m a ∧ r.var_fit = nlsVarFit m a ∧
      (a.append = false → r.columns = r.var_fit) := by
    unfold eval_nls at h
    split_ifs at h <;> simp only [Except.ok.injEq] at h <;> rw [← h]
    · exact ⟨rfl, rfl, fun hap => by simp_all⟩
    · exact ⟨rfl, rfl, fun _ => rfl⟩
  obtain ⟨e1, e2, e3⟩ := hr
  refine ⟨by rw [e1]; exact hfix0, by rw [e2]; exact hnfit, e3, fun x => ?_⟩
  rw [e1]
  simp [nlsFixedRow, hfix0]

/-- Witness for C5: in the fixture model `nlsM1`, variable `c` has width 0
and nominal 5; it lands in `var_fix`, stays out of `var_fit`, and the fixed
row maps it to 5 at the trial point `[7]`. -/
theorem eval_nls_width_zero_always_fixed_witness :
    "c" ∈ (⟨["c"], ["x"], ["x"], [5]⟩ : NlsResult).var_fix ∧
    "c" ∉ (⟨["c"], ["x"], ["x"], [5]⟩ : NlsResult).var_fit ∧
    nlsFixedRow nlsM1 (⟨["c"], ["x"], ["x"], [5]⟩ : NlsResult).var_fix
      (⟨["c"], ["x"], ["x"], [5]⟩ : NlsResult).var_fit [7] "c" =
      some (nlsM1.nominal "c") :=
  ⟨(eval_nls_width_zero_always_fixed nlsE0 nlsS0 nlsM1 nlsA1 "c"
      ⟨["c"], ["x"], ["x"], [5]⟩ (by decide) (by decide) rfl).1,
    (eval_nls_width_zero_always_fixed nlsE0 nlsS0 nlsM1 nlsA1 "c"
      ⟨["c"], ["x"], ["x"], [5]⟩ (by decide) (by decide) rfl).2.1,
    (eval_nls_width_zero_always_fixed nlsE0 nlsS0 nlsM1 nlsA1 "c"
      ⟨["c"], ["x"], ["x"], [5]⟩ (by decide) (by decide) rfl).2.2.2 [7]⟩

/-! ## Claim C3 -/

/-- **C3 (counterexample).** The claim asserts that *both*
optimization-based components fail with a not-implemented condition when
`nrestart > 1`.  `eval_min` never reads `nrestart`: a concrete call with
`nrestart = 2` and a valid configuration returns a normal result instead of
failing. -/
theorem eval_min_nrestart_two_succeeds :
    ({ minA0 with nrestart := 2 } : MinArgs).nrestart = 2 ∧
    eval_min minE0 minS0 minM0 { minA0 with nrestart := 2 } = .ok ⟨["x"], [0]⟩ :=
  ⟨rfl, rfl⟩

/-- **C3 (amended).** `eval_nls` with `nrestart > 1` (and a configuration
passing the earlier checks) raises `NotImplementedError` (line 128), while
`eval_min` accepts `nrestart` but ignores it entirely: its result is the
same for every `nrestart` value. -/
theorem nrestart_policy
    (E : (String → Option ℚ) → ℚ)
    (s : (List ℚ → ℚ) → List ℚ → List (ℚ × ℚ) → SolverOut)
    (m : NlsModel) (a : NlsArgs)
    (h1 : nlsOutMissing m a = []) (h2 : nlsVarFitAll m a ≠ [])
    (h3 : nlsVarProb m a = []) (h4 : 1 < a.nrestart) :
    eval_nls E s m a = .error .notImplemented ∧
    ∀ (Em : (String → ℚ) → String → ℚ)
      (sm : (List ℚ → ℚ) → List ℚ → List (String × (List ℚ → ℚ)) → MinOut)
      (mm : MinModel) (am : MinArgs) (n₁ n₂ : ℕ),
      eval_min Em sm mm { am with nrestart := n₁ } =
        eval_min Em sm mm { am with nrestart := n₂ } := by
  constructor
  · unfold eval_nls
    rw [if_neg (not_not_intro h1), if_neg h2, if_neg (not_not_intro h3), if_pos h4]
  · intro Em sm mm am n₁ n₂
    cases am
    rfl

/-- Witness for the amended C3 on the fixture model with `nrestart = 2`. -/
theorem nrestart_policy_witness :
    eval_nls nlsE0 nlsS0 nlsM0 nlsA3 = .error .notImplemented :=
  (nrestart_policy nlsE0 nlsS0 nlsM0 nlsA3 (by decide) (by decide) (by decide)
    (by decide)).1

/-! ## Claim C7 -/

/-- **C7.** `eval_min` succeeds exactly when the model has no random
variables, `out_min` is a model output, and every `out_geq`/`out_eq` name is
a model output; each violated precondition yields its configuration error,
the two missing-name lists are reported independently and name exactly the
offending sets, and every error is decided before the solver or evaluator is
invoked (the failing outcome is identical for all solvers and evaluators). -/
theorem eval_min_preconditions
    (E₁ E₂ : (String → ℚ) → String → ℚ)
    (s₁ s₂ : (List ℚ → ℚ) → List ℚ → List (String × (List ℚ → ℚ)) → MinOut)
    (m : MinModel) (a : MinArgs) :
    (exceptIsOk (eval_min E₁ s₁ m a) = true ↔
      (m.n_var_rand = 0 ∧ minOutMinOk m a = true ∧
        minGeqMiss m a = [] ∧ minEqMiss m a = [])) ∧
    (0 < m.n_var_rand → eval_min E₁ s₁ m a = .error .hasRandVars) ∧
    (m.n_var_rand = 0 → minOutMinOk m a = false →
      eval_min E₁ s₁ m a = .error .missingOutMin) ∧
    (m.n_var_rand = 0 → minOutMinOk m a = true → minGeqMiss m a ≠ [] →
      eval_min E₁ s₁ m a = .error (.missingGeq (minGeqMiss m a))) ∧
    (m.n_var_rand = 0 → minOutMinOk m a = true → minGeqMiss m a = [] →
      minEqMiss m a ≠ [] →
      eval_min E₁ s₁ m a = .error (.missingEq (minEqMiss m a))) ∧
    (∀ x, x ∈ minGeqMiss m a ↔ x ∈ a.out_geq?.getD [] ∧ x ∉ m.out) ∧
    (∀ x, x ∈ minEqMiss m a ↔ x ∈ a.out_eq?.getD [] ∧ x ∉ m.out) ∧
    (exceptIsOk (eval_min E₁ s₁ m a) = false →
      eval_min E₁ s₁ m a = eval_min E₂ s₂ m a) := by
  refine ⟨?_, ?_, ?_, ?_, ?_, ?_, ?_, ?_⟩
  · unfold eval_min
    split_ifs with h1 h2 h3 h4
    · simp [exceptIsOk, Nat.pos_iff_ne_zero.mp h1]
    · simp [exceptIsOk, h2]
    · simp [exceptIsOk, h3]
    · simp [exceptIsOk, h4]
    · have e1 : m.n_var_rand = 0 := by omega
      have e2 : minOutMinOk m a = true := by
        cases hmo : minOutMinOk m a with
        | false => exact absurd hmo h2
        | true => rfl
      exact ⟨fun _ => ⟨e1, e2, not_ne_iff.mp h3, not_ne_iff.mp h4⟩, fun _ => rfl⟩
  · intro h
    unfold eval_min
    rw [if_pos h]
  · intro h0 hok
    unfold eval_min
    rw [if_neg (by omega), if_pos hok]
  · intro h0 hok hg
    unfold eval_min
    rw [if_neg (by omega), if_neg (by simp [hok]), if_pos hg]
  · intro h0 hok hg he
    unfold eval_min
    rw [if_neg (by omega), if_neg (by simp [hok]), if_neg (not_not_intro hg),
      if_pos he]
  · intro x
    simp [minGeqMiss, List.mem_filter]
  · intro x
    simp [minEqMiss, List.mem_filter]
  · intro hf
    unfold eval_min at hf ⊢
    split_ifs at hf ⊢ <;> first | rfl | simp [exceptIsOk] at hf

/-- Witness for C7: the fixture model with one random variable fails with
the random-variables configuration error. -/
theorem eval_min_preconditions_witness :
    0 < minM1.n_var_rand ∧
    eval_min minE0 minS0 minM1 minA0 = .error .hasRandVars :=
  ⟨by decide,
    (eval_min_preconditions minE0 minE0 minS0 minS0 minM1 minA0).2.1 (by decide)⟩

end Grama
